import Mathlib

/-!
# Fetch-and-merge op handle

A shallow embedding of `paddle/fluid/framework/details/fetch_async_op_handle.cc`
(`CheckTensorAttrs`, `TransData`, `FetchAsyncOpHandle::FetchMergedLodTensor`,
`FetchAsyncOpHandle::RunImpl`) together with the properties of the merge that the
specification states.

Conventions of the embedding.

* A C++ exception is a value of `Err`; a function that may throw returns `Except Err _`.
  `RunImpl` mutates the result container behind `data_`, so it returns the container as it
  is when the function returns or throws, next to the error (if any).
* Dimension values are natural numbers and so are the row offsets `begin` / `end` of the
  copy loop: tensors held by a scope have non-negative extents, and the narrowing
  `static_cast<int>` is the identity on them (leading-dimension totals below `2^31`).
* Element values are only moved, never computed on; a storage cell is `Option Int`, where
  `none` is a cell of freshly allocated storage that nothing has been written to yet.
* Types that the source file only uses (`phi::DenseTensor`, `DDim`, `Variable`, the fetch
  result variants, `TensorCopy`, `Slice`) are declared elsewhere in the repository; they are
  modelled from the specification and marked as such.
-/

namespace Paddle

/-! ## Data model -/

/-- Modelled from the spec: the element type tag of a tensor (`proto::VarType::Type`, declared
outside this file); only 32-bit float is named by the source, as the default reference type. -/
inductive VarType where
  | BOOL | INT16 | INT32 | INT64 | FP16 | FP32 | FP64
  deriving DecidableEq, Repr

/-- Modelled from the spec: the memory layout tag (`phi::DataLayout`). -/
inductive DataLayout where
  | UNDEFINED | NHWC | NCHW
  deriving DecidableEq, Repr

/-- Modelled from the spec: device placement, a tagged variant over host, accelerator,
pinned host memory and any other device. -/
inductive Place where
  | CPUPlace
  | GPUPlace (device : Nat)
  | CUDAPinnedPlace
  | OtherPlace
  deriving DecidableEq, Repr

/-- The test `platform::is_gpu_place`. -/
def is_gpu_place : Place → Bool
  | .GPUPlace _ => true
  | _ => false

/-- Modelled from the spec: a dimension list (`DDim`); its `size()` is the list length. -/
abbrev DDim := List Nat

/-- Modelled from the spec: nested-sequence-length metadata (`LoD`), a list of levels. -/
abbrev LoD := List (List Nat)

/-- One element of tensor storage; `none` is a cell that was allocated but never written. -/
abbrev Cell := Option Int

/-- Modelled from the spec: a Tensor Value, a dense typed n-dimensional array with its element
type, layout tag, dimension list, nested-sequence metadata, device placement and initialized
flag; `data` is the storage in row-major order. -/
structure DenseTensor where
  dtype : VarType
  layout : DataLayout
  dims : DDim
  lod : LoD
  place : Place
  initialized : Bool
  data : List Cell
  deriving DecidableEq, Repr

/-- The element count `numel()`: the product of the dimensions (1 for rank 0). -/
def DenseTensor.numel (t : DenseTensor) : Nat := t.dims.prod

/-- The test `IsInitialized()`. -/
def DenseTensor.IsInitialized (t : DenseTensor) : Bool := t.initialized

/-- The read `dims()[0]`; on a rank-0 dimension list it reads as 0. -/
def dim0 (d : DDim) : Nat := d.headD 0

/-- Number of elements in one row along the leading axis (`numel() / dims()[0]`). -/
def DenseTensor.rowSize (t : DenseTensor) : Nat := t.dims.tail.prod

/-- A tensor whose storage, when it has any, holds exactly `numel()` elements. -/
def DenseTensor.WellFormed (t : DenseTensor) : Prop :=
  t.initialized = true → t.data.length = t.numel

instance (t : DenseTensor) : Decidable t.WellFormed := by
  unfold DenseTensor.WellFormed; infer_instance

/-- Which attribute a failed consistency check found different. -/
inductive Mismatch where
  | dtype | layout | rank | dim | lod
  deriving DecidableEq, Repr

/-- The failures of the fetch node. `InvalidArgument` is the spec's
`InconsistentFetchStructure` and carries the `offset` put into its message; `NotFound` is
`VariableNotFound`; `WrongType` is a `Get<T>` / `PADDLE_GET` on a value of another
alternative; `OutOfRange` is `std::vector::at` past the end; `Undefined` stands for an
unchecked `operator[]` past the end, to which C++ assigns no behaviour. -/
inductive Err where
  | NotFound (name : String)
  | InvalidArgument (what : Mismatch) (offset : Nat)
  | WrongType
  | OutOfRange
  | Undefined
  deriving DecidableEq, Repr

deriving instance DecidableEq for Except

/-! ## CheckTensorAttrs -/

/-- The loop `for (int j = 1; j < dims.size(); j++)` of `CheckTensorAttrs`, started at `j`
with `n` iterations left. -/
def checkDimsFrom (dims tensor_dims : DDim) (offset : Nat) : Nat → Nat → Except Err Unit
  | _, 0 => .ok ()
  | j, n + 1 =>
    if dims.getD j 0 = tensor_dims.getD j 0 then checkDimsFrom dims tensor_dims offset (j + 1) n
    else .error (.InvalidArgument .dim offset)

/-- The function `CheckTensorAttrs`: steps 1 and 2 (type, layout) run only for a tensor that
is non-empty and initialized; steps 3 and 4 (dimension count, non-leading dimensions,
metadata size) always run. -/
def CheckTensorAttrs (tensor : DenseTensor) (type : VarType) (layout : DataLayout)
    (dims : DDim) (lod : LoD) (offset : Nat) : Except Err Unit := do
  if tensor.numel ≠ 0 ∧ tensor.IsInitialized = true then
    if type ≠ tensor.dtype then throw (.InvalidArgument .dtype offset)
    if layout ≠ tensor.layout then throw (.InvalidArgument .layout offset)
  let tensor_dims := tensor.dims
  if dims.length ≠ tensor_dims.length then throw (.InvalidArgument .rank offset)
  checkDimsFrom dims tensor_dims offset 1 (dims.length - 1)
  if lod.length ≠ tensor.lod.length then throw (.InvalidArgument .lod offset)

/-! ## TransData -/

/-- Modelled from the spec: the copy `TensorCopy` behind the Device-to-Host Stager. The
destination takes the source's shape, layout, element type and elements, and lives at the
requested host place. -/
def TensorCopy (src : DenseTensor) (dst_place : Place) (dst : DenseTensor) : DenseTensor :=
  { dst with
    dims := src.dims, layout := src.layout, dtype := src.dtype
    place := dst_place, initialized := true, data := src.data }

/-- The function `TransData` (the device context only selects the stream of the copy and is
left out): nothing happens for an uninitialized or empty source; an accelerator-resident
source is copied to pinned host memory, any other source to plain host memory. -/
def TransData (src_item dst_item : DenseTensor) : DenseTensor :=
  if src_item.IsInitialized = true ∧ src_item.numel > 0 then
    if is_gpu_place src_item.place = true then TensorCopy src_item .CUDAPinnedPlace dst_item
    else TensorCopy src_item .CPUPlace dst_item
  else dst_item

/-! ## FetchMergedLodTensor -/

/-- Modelled from the spec: `Slice(begin, end)`, the view of rows `[begin, end)` along the
leading axis. -/
def DenseTensor.Slice (t : DenseTensor) (begin_idx end_idx : Nat) : DenseTensor :=
  { t with
    dims := (end_idx - begin_idx) :: t.dims.tail
    data := (t.data.drop (begin_idx * t.rowSize)).take ((end_idx - begin_idx) * t.rowSize) }

/-- Overwrite `buf` from position `off` on with `new`; storage that cannot hold `new` there
is left as it is. -/
def writeAt (buf : List Cell) (off : Nat) (new : List Cell) : List Cell :=
  if off + new.length ≤ buf.length then buf.take off ++ new ++ buf.drop (off + new.length)
  else buf

/-- Modelled from the spec: a slice shares the storage of the tensor it was taken from, so
what was written through the view `view` of the rows from `begin_idx` on is seen in `t`. -/
def DenseTensor.shareBack (t : DenseTensor) (begin_idx : Nat) (view : DenseTensor) :
    DenseTensor :=
  { t with data := writeAt t.data (begin_idx * t.rowSize) view.data }

/-- The test `t->numel() && t->IsInitialized()`. -/
def nonEmptyInit (t : DenseTensor) : Bool := t.numel != 0 && t.IsInitialized

/-- The first loop of `FetchMergedLodTensor`: `check_dim`, `new_type` and `new_layout` are
those of the first non-empty initialized source, and keep their initial values
(`dflt`, the default-constructed `DDim`, 32-bit float, undefined layout) if there is none. -/
def selectReference (dflt : DDim) : List DenseTensor → DDim × VarType × DataLayout
  | [] => (dflt, .FP32, .UNDEFINED)
  | t :: ts =>
    if nonEmptyInit t = true then (t.dims, t.dtype, t.layout) else selectReference dflt ts

/-- The loop `for (size_t i = 1; ...) CheckTensorAttrs(src_lodtensors[i], ...)`, given the
sources from position 1 on. -/
def checkSources (type : VarType) (layout : DataLayout) (dims : DDim) (lod : LoD)
    (offset : Nat) : List DenseTensor → Except Err Unit
  | [] => .ok ()
  | t :: ts => do
    CheckTensorAttrs t type layout dims lod offset
    checkSources type layout dims lod offset ts

/-- The update `new_dim[0] += x`; a rank-0 dimension list has no entry to update and stays
as it is. -/
def addLeading (d : DDim) (x : Nat) : DDim :=
  match d with
  | [] => []
  | d0 :: ds => (d0 + x) :: ds

/-- The loop computing `new_dim` for rank >= 1, from the state `(new_dim, find_first_dims)`:
the first non-empty initialized source gives its dimensions, every later one adds its
leading dimension. -/
def concatDims : List DenseTensor → DDim × Bool → DDim × Bool
  | [], st => st
  | t :: ts, (new_dim, find_first_dims) =>
    if nonEmptyInit t = true then
      if find_first_dims = false then concatDims ts (t.dims, true)
      else concatDims ts (addLeading new_dim (dim0 t.dims), true)
    else concatDims ts (new_dim, find_first_dims)

/-- State of the copy loop: the offset `begin`, the destination, and the slices
`(begin, end)` handed to `TransData` so far, in order. -/
structure CopyState where
  begin : Nat
  dst : DenseTensor
  slices : List (Nat × Nat)
  deriving DecidableEq, Repr

/-- One iteration of the copy loop of `FetchMergedLodTensor`. -/
def copyStep (rank : Nat) (st : CopyState) (src : DenseTensor) : CopyState :=
  let end_idx := if rank = 0 then st.begin + 1 else st.begin + dim0 src.dims
  if end_idx = st.begin then st
  else
    let dst := TransData src (st.dst.Slice st.begin end_idx)
    { begin := end_idx
      dst := st.dst.shareBack st.begin dst
      slices := st.slices ++ [(st.begin, end_idx)] }

/-- The copy loop `for (auto *src : src_lodtensors)`. -/
def copyLoop (rank : Nat) : CopyState → List DenseTensor → CopyState
  | st, [] => st
  | st, src :: rest => copyLoop rank (copyStep rank st src) rest

/-- The reference handed to `CheckTensorAttrs`: `check_dim`, `new_type`, `new_layout` and
`new_lod`. -/
structure Reference where
  check_dim : DDim
  new_type : VarType
  new_layout : DataLayout
  new_lod : LoD
  deriving DecidableEq, Repr

/-- The reference as `FetchMergedLodTensor` computes it before its check loop:
`new_lod` is initialised from `src_lodtensors[0]` and the first loop assigns the other three. -/
def mergeReference (dflt : DDim) (src0 : DenseTensor) (src_lodtensors : List DenseTensor) :
    Reference :=
  let new_lod := src0.lod
  let (check_dim, new_type, new_layout) := selectReference dflt src_lodtensors
  { check_dim := check_dim, new_type := new_type, new_layout := new_layout, new_lod := new_lod }

/-- The body of `FetchMergedLodTensor`, returning the final state of its copy loop.
`dflt` is the default-constructed `DDim` and `offset_` the node's offset. -/
def mergeRun (dflt : DDim) (offset_ : Nat) (src_lodtensors : List DenseTensor)
    (dst_lodtensor : DenseTensor) : Except Err CopyState :=
  match src_lodtensors with
  | [] => .error .Undefined
  | src0 :: rest => do
    let ref := mergeReference dflt src0 src_lodtensors
    checkSources ref.new_type ref.new_layout ref.check_dim ref.new_lod offset_ rest
    let rank := src0.dims.length
    let new_dim : DDim :=
      if rank = 0 then [src_lodtensors.length]
      else (concatDims src_lodtensors (dflt, false)).1
    let dst : DenseTensor :=
      { dst_lodtensor with
        dims := new_dim
        layout := src0.layout
        lod := src0.lod
        place := if is_gpu_place src0.place = true then .CUDAPinnedPlace else .CPUPlace
        dtype := src0.dtype
        initialized := true
        data := List.replicate new_dim.prod none }
    pure (copyLoop rank { begin := 0, dst := dst, slices := [] } src_lodtensors)

/-- The method `FetchAsyncOpHandle::FetchMergedLodTensor`: the destination tensor after the
merge, or the failed consistency check. -/
def FetchMergedLodTensor (dflt : DDim) (offset_ : Nat) (src_lodtensors : List DenseTensor)
    (dst_lodtensor : DenseTensor) : Except Err DenseTensor :=
  (mergeRun dflt offset_ src_lodtensors dst_lodtensor).map (fun st => st.dst)

/-! ## RunImpl -/

/-- Modelled from the spec: a runtime value held by a scope (`Variable`), a tensor or an
ordered sequence of tensors (`LoDTensorArray`). -/
inductive Variable where
  | tensor (t : DenseTensor)
  | tensorArray (a : List DenseTensor)
  deriving DecidableEq, Repr

/-- Modelled from the spec: one fetched value (`FetchType`), a tensor or a tensor sequence. -/
inductive FetchType where
  | tensor (t : DenseTensor)
  | tensorArray (a : List DenseTensor)
  deriving DecidableEq, Repr

/-- Modelled from the spec: the shared result container (`FetchResultType`), a `FetchList`
with one merged value per slot or a `FetchUnmergedList` with one per-device list per slot. -/
inductive FetchResultType where
  | merged (val : List FetchType)
  | unmerged (val : List (List FetchType))
  deriving DecidableEq, Repr

/-- Modelled from the spec: a Dependency Input (`VarHandle`), scope index and variable name. -/
structure VarHandle where
  scope_idx : Nat
  name : String
  deriving DecidableEq, Repr

/-- Modelled from the spec: the Execution Scope Lookup `find(scope_index, name)`, which
returns the runtime value or null. -/
abbrev ScopeLookup := Nat → String → Option Variable

/-- Modelled from the spec: what default construction yields, for a `DDim` and for a
`phi::DenseTensor`; both constructors are declared outside this file. -/
structure Defaults where
  ddim : DDim
  tensor : DenseTensor
  deriving DecidableEq, Repr

/-- The members of `FetchAsyncOpHandle` that `RunImpl` reads. -/
structure FetchAsyncOpHandle where
  inputs_ : List VarHandle
  offset_ : Nat
  return_merged_ : Bool
  deriving DecidableEq, Repr

/-- How `RunImpl` ends: the error thrown, if any, and the result container at that moment. -/
structure Outcome where
  error : Option Err
  data : FetchResultType
  deriving DecidableEq, Repr

/-- The loop of `RunImpl` that resolves the inputs; a null lookup throws `NotFound`. -/
def getSrcVars (scopes : ScopeLookup) : List VarHandle → Except Err (List Variable)
  | [] => .ok []
  | var_handle :: inputs =>
    match scopes var_handle.scope_idx var_handle.name with
    | none => .error (.NotFound var_handle.name)
    | some var => do
      let src_vars ← getSrcVars scopes inputs
      pure (var :: src_vars)

/-- The loop `src_var->Get<phi::DenseTensor>()` over the resolved variables. -/
def getTensors : List Variable → Except Err (List DenseTensor)
  | [] => .ok []
  | .tensor t :: vs => do
    let ts ← getTensors vs
    pure (t :: ts)
  | .tensorArray _ :: _ => .error .WrongType

/-- The loop `src_var->Get<framework::LoDTensorArray>()` over the resolved variables. -/
def getArrays : List Variable → Except Err (List (List DenseTensor))
  | [] => .ok []
  | .tensorArray a :: vs => do
    let as ← getArrays vs
    pure (a :: as)
  | .tensor _ :: _ => .error .WrongType

/-- The inner loop collecting `&(*src_lodtensor_array)[i]` from every source sequence. -/
def elementsAt (i : Nat) : List (List DenseTensor) → Except Err (List DenseTensor)
  | [] => .ok []
  | a :: as =>
    match a.get? i with
    | none => .error .Undefined
    | some t => do
      let ts ← elementsAt i as
      pure (t :: ts)

/-- The loop `for (size_t i = 0; i < dst_lodtensor_array.size(); ++i)` of the merged branch,
started at `i` with `n` iterations left; every destination element starts out
default-constructed. -/
def mergeArrays (D : Defaults) (offset_ : Nat) (src_lodtensor_arrays : List (List DenseTensor)) :
    Nat → Nat → Except Err (List DenseTensor)
  | _, 0 => .ok []
  | i, n + 1 => do
    let src_lodtensors ← elementsAt i src_lodtensor_arrays
    let dst ← FetchMergedLodTensor D.ddim offset_ src_lodtensors D.tensor
    let rest ← mergeArrays D offset_ src_lodtensor_arrays (i + 1) n
    pure (dst :: rest)

/-- The assignment `val.at(offset_) = std::move(x)`. -/
def assignSlot (data : FetchResultType) (val : List FetchType) (offset_ : Nat)
    (x : FetchType) : Outcome :=
  if offset_ < val.length then { error := none, data := .merged (val.set offset_ x) }
  else { error := some .OutOfRange, data := data }

/-- The branch `if (return_merged_)` of `RunImpl`. -/
def runMerged (D : Defaults) (offset_ : Nat) (src_vars : List Variable)
    (data : FetchResultType) : Outcome :=
  match data with
  | .unmerged _ => { error := some .WrongType, data := data }
  | .merged val =>
    match src_vars with
    | [] => { error := some .Undefined, data := data }
    | .tensor _ :: _ =>
      match getTensors src_vars with
      | .error e => { error := some e, data := data }
      | .ok src_lodtensors =>
        match FetchMergedLodTensor D.ddim offset_ src_lodtensors D.tensor with
        | .error e => { error := some e, data := data }
        | .ok dst_lodtensor => assignSlot data val offset_ (.tensor dst_lodtensor)
    | .tensorArray _ :: _ =>
      match getArrays src_vars with
      | .error e => { error := some e, data := data }
      | .ok src_lodtensor_arrays =>
        match mergeArrays D offset_ src_lodtensor_arrays 0
            (src_lodtensor_arrays.headD []).length with
        | .error e => { error := some e, data := data }
        | .ok dst_lodtensor_array => assignSlot data val offset_ (.tensorArray dst_lodtensor_array)

/-- What one iteration of the unmerged loop appends: the staged tensor, or the sequence
staged element by element into default-constructed items. -/
def stageVar (D : Defaults) : Variable → FetchType
  | .tensor t => .tensor (TransData t D.tensor)
  | .tensorArray t => .tensorArray (t.map (fun tj => TransData tj D.tensor))

/-- The loop `for (auto src_var : src_vars)` of the unmerged branch; each iteration does
`dst_tensors.emplace_back(item)` on the slot `val.at(offset_)`. -/
def stageLoop (D : Defaults) (offset_ : Nat) :
    List (List FetchType) → List Variable → List (List FetchType)
  | val, [] => val
  | val, src_var :: src_vars =>
    stageLoop D offset_ (val.set offset_ (val.getD offset_ [] ++ [stageVar D src_var])) src_vars

/-- The branch `else` (unmerged) of `RunImpl`. -/
def runUnmerged (D : Defaults) (offset_ : Nat) (src_vars : List Variable)
    (data : FetchResultType) : Outcome :=
  match data with
  | .merged _ => { error := some .WrongType, data := data }
  | .unmerged val =>
    if offset_ < val.length then
      { error := none, data := .unmerged (stageLoop D offset_ val src_vars) }
    else { error := some .OutOfRange, data := data }

/-- The method `FetchAsyncOpHandle::RunImpl`, run on the container `data` behind `data_`
(the event record and the wait for the inputs do not touch the container). -/
def RunImpl (D : Defaults) (scopes : ScopeLookup) (h : FetchAsyncOpHandle)
    (data : FetchResultType) : Outcome :=
  match getSrcVars scopes h.inputs_ with
  | .error e => { error := some e, data := data }
  | .ok src_vars =>
    if h.return_merged_ = true then runMerged D h.offset_ src_vars data
    else runUnmerged D h.offset_ src_vars data

/-! ## Notions used to state the properties -/

/-- Concatenation of the storage of a list of tensors, in order. -/
def concatData : List DenseTensor → List Cell
  | [] => []
  | t :: ts => t.data ++ concatData ts

/-- Sum of the leading dimensions of a list of tensors. -/
def leadingSum (ts : List DenseTensor) : Nat := (ts.map (fun t => dim0 t.dims)).sum

/-- How far one source moves the offset `begin` of the copy loop: 1 when stacking scalars,
its leading dimension when concatenating. -/
def advance (rank : Nat) (src : DenseTensor) : Nat :=
  if rank = 0 then 1 else dim0 src.dims

/-- Sum of the advances of a list of sources. -/
def advanceSum (rank : Nat) (ts : List DenseTensor) : Nat := (ts.map (advance rank)).sum

/-- A default-constructed tensor as used in the examples: no storage, one dimension of 0. -/
def sampleFresh : DenseTensor :=
  { dtype := .FP32, layout := .UNDEFINED, dims := [0], lod := [], place := .CPUPlace,
    initialized := false, data := [] }

/-- The defaults used in the examples. -/
def sampleDefaults : Defaults := { ddim := [0], tensor := sampleFresh }

/-- An initialized float tensor on accelerator 0 with the given shape, metadata and elements. -/
def gpuTensor (dims : DDim) (lod : LoD) (xs : List Int) : DenseTensor :=
  { dtype := .FP32, layout := .NCHW, dims := dims, lod := lod, place := .GPUPlace 0,
    initialized := true, data := xs.map some }

/-- An initialized float tensor in host memory with the given shape, metadata and elements. -/
def cpuTensor (dims : DDim) (lod : LoD) (xs : List Int) : DenseTensor :=
  { dtype := .FP32, layout := .NCHW, dims := dims, lod := lod, place := .CPUPlace,
    initialized := true, data := xs.map some }

/-- A copy-loop state after one source of two rows: the destination has three rows of two
elements, the first two rows written. -/
def sampleCopyState : CopyState :=
  { begin := 2
    dst := { cpuTensor [3, 2] [] [1, 2, 3, 4] with data := [some 1, some 2, some 3, some 4, none, none] }
    slices := [(0, 2)] }

/-- A tensor with shape and element type set but no storage behind it (never written). -/
def uninitTensor (dtype : VarType) (dims : DDim) : DenseTensor :=
  { dtype := dtype, layout := .NCHW, dims := dims, lod := [], place := .CPUPlace,
    initialized := false, data := [] }

/-- A scope lookup for the examples: scope 0 holds the tensor `x`, the
one-element sequence `xs` and the two-element sequence `ys`; scope 1 holds a tensor `x` of
another shape and two-element sequences `xs` and `ys`. -/
def sampleScopes : ScopeLookup := fun scope_idx name =>
  if scope_idx = 0 ∧ name = "x" then some (.tensor (gpuTensor [3] [] [1, 2, 3]))
  else if scope_idx = 1 ∧ name = "x" then some (.tensor (cpuTensor [2, 2] [] [4, 5, 6, 7]))
  else if scope_idx = 0 ∧ name = "xs" then some (.tensorArray [cpuTensor [1] [] [1]])
  else if scope_idx = 1 ∧ name = "xs" then
    some (.tensorArray [cpuTensor [2] [] [2, 3], cpuTensor [1] [] [9]])
  else if scope_idx = 0 ∧ name = "ys" then
    some (.tensorArray [cpuTensor [1] [] [1], cpuTensor [2] [] [5, 6]])
  else if scope_idx = 1 ∧ name = "ys" then
    some (.tensorArray [cpuTensor [2] [] [2, 3], cpuTensor [1] [] [9]])
  else none

/-- An initialized but empty tensor of shape `[0]` in host memory, with layout `NHWC` and one
level of nested-sequence metadata. -/
def emptyNHWC : DenseTensor :=
  { dtype := .FP32, layout := .NHWC, dims := [0], lod := [[0]], place := .CPUPlace,
    initialized := true, data := [] }

/-- A second scope lookup for the examples: the sequences `zs` of scope 0 and scope 1 agree
in shape at index 0 and differ in a trailing dimension at index 1. -/
def sampleScopesMismatch : ScopeLookup := fun scope_idx name =>
  if scope_idx = 0 ∧ name = "zs" then
    some (.tensorArray [cpuTensor [1] [] [1], cpuTensor [1, 2] [] [5, 6]])
  else if scope_idx = 1 ∧ name = "zs" then
    some (.tensorArray [cpuTensor [2] [] [2, 3], cpuTensor [1, 3] [] [7, 8, 9]])
  else none

/-! ## Properties of CheckTensorAttrs -/

theorem checkDimsFrom_ok_iff (dims tensor_dims : DDim) (offset : Nat) (n : Nat) :
    ∀ j, checkDimsFrom dims tensor_dims offset j n = .ok () ↔
      ∀ k, j ≤ k → k < j + n → dims.getD k 0 = tensor_dims.getD k 0 := by
  induction n with
  | zero =>
    intro j
    simp only [checkDimsFrom, true_iff]
    intro k h1 h2
    omega
  | succ n ih =>
    intro j
    unfold checkDimsFrom
    by_cases hj : dims.getD j 0 = tensor_dims.getD j 0
    · rw [if_pos hj, ih (j + 1)]
      constructor
      · intro h k h1 h2
        rcases Nat.eq_or_lt_of_le h1 with h3 | h3
        · subst h3; exact hj
        · exact h k h3 (by omega)
      · intro h k h1 h2
        exact h k (by omega) (by omega)
    · rw [if_neg hj]
      constructor
      · intro h; cases h
      · intro h; exact absurd (h j (Nat.le_refl j) (by omega)) hj

theorem checkDimsFrom_error (dims tensor_dims : DDim) (offset : Nat) (n : Nat) :
    ∀ j e, checkDimsFrom dims tensor_dims offset j n = .error e →
      e = .InvalidArgument .dim offset := by
  induction n with
  | zero => intro j e h; simp [checkDimsFrom] at h
  | succ n ih =>
    intro j e h
    unfold checkDimsFrom at h
    split at h
    · exact ih _ _ h
    · cases h; rfl

/-- The function `CheckTensorAttrs` as a cascade of tests. -/
theorem checkTensorAttrs_eq (tensor : DenseTensor) (type : VarType) (layout : DataLayout)
    (dims : DDim) (lod : LoD) (offset : Nat) :
    CheckTensorAttrs tensor type layout dims lod offset =
      if (tensor.numel ≠ 0 ∧ tensor.initialized = true) ∧ type ≠ tensor.dtype then
        .error (.InvalidArgument .dtype offset)
      else if (tensor.numel ≠ 0 ∧ tensor.initialized = true) ∧ layout ≠ tensor.layout then
        .error (.InvalidArgument .layout offset)
      else if dims.length ≠ tensor.dims.length then .error (.InvalidArgument .rank offset)
      else
        match checkDimsFrom dims tensor.dims offset 1 (dims.length - 1) with
        | .error e => .error e
        | .ok _ =>
          if lod.length ≠ tensor.lod.length then .error (.InvalidArgument .lod offset)
          else .ok () := by
  unfold CheckTensorAttrs DenseTensor.IsInitialized
  dsimp only
  generalize checkDimsFrom dims tensor.dims offset 1 (dims.length - 1) = r
  by_cases h1 : tensor.numel ≠ 0 ∧ tensor.initialized = true <;>
  by_cases h2 : type = tensor.dtype <;>
  by_cases h3 : layout = tensor.layout <;>
  by_cases h4 : dims.length = tensor.dims.length <;>
  cases r <;>
  simp [h1, h2, h3, h4, bind, Except.bind, pure, Except.pure, throw, throwThe,
    MonadExceptOf.throw]

/-- The success condition of `CheckTensorAttrs`. -/
theorem checkTensorAttrs_ok_iff (tensor : DenseTensor) (type : VarType) (layout : DataLayout)
    (dims : DDim) (lod : LoD) (offset : Nat) :
    CheckTensorAttrs tensor type layout dims lod offset = .ok () ↔
      ((tensor.numel = 0 ∨ tensor.initialized = false) ∨
          (tensor.dtype = type ∧ tensor.layout = layout)) ∧
        tensor.dims.length = dims.length ∧
        (∀ j, 1 ≤ j → j < dims.length → tensor.dims.getD j 0 = dims.getD j 0) ∧
        tensor.lod.length = lod.length := by
  have hloop := checkDimsFrom_ok_iff dims tensor.dims offset (dims.length - 1) 1
  have hloop2 : (∀ k, 1 ≤ k → k < 1 + (dims.length - 1) → dims.getD k 0 = tensor.dims.getD k 0) ↔
      (∀ j, 1 ≤ j → j < dims.length → tensor.dims.getD j 0 = dims.getD j 0) := by
    constructor
    · intro h j h1 h2; exact (h j h1 (by omega)).symm
    · intro h k h1 h2; exact (h k h1 (by omega)).symm
  rw [← hloop2, ← hloop, checkTensorAttrs_eq]
  generalize checkDimsFrom dims tensor.dims offset 1 (dims.length - 1) = r
  by_cases h0 : tensor.numel = 0 <;>
  by_cases h1 : tensor.initialized = true <;>
  by_cases h2 : type = tensor.dtype <;>
  by_cases h3 : layout = tensor.layout <;>
  by_cases h4 : dims.length = tensor.dims.length <;>
  by_cases h5 : lod.length = tensor.lod.length <;>
  rcases r with e | u <;>
  simp [h0, h1, h2, h3, h4, h5, eq_comm]

/-- A failed `CheckTensorAttrs` throws `InvalidArgument` carrying the `offset` it was given. -/
theorem checkTensorAttrs_error (tensor : DenseTensor) (type : VarType) (layout : DataLayout)
    (dims : DDim) (lod : LoD) (offset : Nat) (e : Err)
    (h : CheckTensorAttrs tensor type layout dims lod offset = .error e) :
    ∃ what, e = .InvalidArgument what offset := by
  rw [checkTensorAttrs_eq] at h
  split at h
  · cases h; exact ⟨_, rfl⟩
  split at h
  · cases h; exact ⟨_, rfl⟩
  split at h
  · cases h; exact ⟨_, rfl⟩
  split at h
  · rename_i e2 hc
    cases h
    exact ⟨_, checkDimsFrom_error _ _ _ _ _ _ hc⟩
  · split at h
    · cases h; exact ⟨_, rfl⟩
    · cases h

/-! ## Properties of the loops of FetchMergedLodTensor -/

theorem tail_eq_of_getD (a b : List Nat) (hlen : a.length = b.length)
    (h : ∀ j, 1 ≤ j → j < b.length → a.getD j 0 = b.getD j 0) : a.tail = b.tail := by
  cases a with
  | nil =>
    cases b with
    | nil => rfl
    | cons y ys => simp at hlen
  | cons x xs =>
    cases b with
    | nil => simp at hlen
    | cons y ys =>
      simp only [List.tail_cons]
      simp only [List.length_cons, Nat.add_right_cancel_iff] at hlen
      apply List.ext_getElem hlen
      intro n h1 h2
      have := h (n + 1) (by omega) (by simp; omega)
      simpa [List.getD_eq_getElem?_getD, List.getElem?_eq_getElem h1,
        List.getElem?_eq_getElem h2] using this

theorem checkSources_ok_iff (type : VarType) (layout : DataLayout) (dims : DDim) (lod : LoD)
    (offset : Nat) (ts : List DenseTensor) :
    checkSources type layout dims lod offset ts = .ok () ↔
      ∀ t ∈ ts, CheckTensorAttrs t type layout dims lod offset = .ok () := by
  induction ts with
  | nil => simp [checkSources]
  | cons t ts ih =>
    unfold checkSources
    cases hc : CheckTensorAttrs t type layout dims lod offset with
    | error e => simp [bind, Except.bind, hc]
    | ok u => simp [bind, Except.bind, hc, ih]

theorem checkSources_error (type : VarType) (layout : DataLayout) (dims : DDim) (lod : LoD)
    (offset : Nat) (ts : List DenseTensor) (e : Err)
    (h : checkSources type layout dims lod offset ts = .error e) :
    ∃ what, e = .InvalidArgument what offset := by
  induction ts with
  | nil => simp [checkSources] at h
  | cons t ts ih =>
    unfold checkSources at h
    cases hc : CheckTensorAttrs t type layout dims lod offset with
    | error e2 =>
      simp only [bind, Except.bind, hc] at h
      cases h
      exact checkTensorAttrs_error _ _ _ _ _ _ _ hc
    | ok u =>
      simp only [bind, Except.bind, hc] at h
      exact ih h

theorem selectReference_head (dflt : DDim) (s0 : DenseTensor) (rest : List DenseTensor)
    (h : nonEmptyInit s0 = true) :
    selectReference dflt (s0 :: rest) = (s0.dims, s0.dtype, s0.layout) := by
  simp [selectReference, h]

theorem nonEmptyInit_iff (t : DenseTensor) :
    nonEmptyInit t = true ↔ t.numel ≠ 0 ∧ t.initialized = true := by
  simp [nonEmptyInit, DenseTensor.IsInitialized]

theorem concatDims_found (tl : List Nat) :
    ∀ (ts : List DenseTensor) (d : Nat),
      (∀ t ∈ ts, nonEmptyInit t = true ∧ t.dims.tail = tl) →
      concatDims ts (d :: tl, true) = ((d + leadingSum ts) :: tl, true) := by
  intro ts
  induction ts with
  | nil => intro d _; simp [concatDims, leadingSum]
  | cons t ts ih =>
    intro d h
    have ht := h t (List.mem_cons_self _ _)
    unfold concatDims
    simp only [ht.1, if_true, Bool.true_eq_false, if_false, addLeading]
    rw [ih (d + dim0 t.dims) (fun u hu => h u (List.mem_cons_of_mem _ hu))]
    simp [leadingSum, Nat.add_assoc]

theorem concatDims_all (dflt : DDim) (s0 : DenseTensor) (rest : List DenseTensor)
    (h0 : nonEmptyInit s0 = true) (hr : s0.dims ≠ [])
    (h : ∀ t ∈ rest, nonEmptyInit t = true ∧ t.dims.tail = s0.dims.tail) :
    (concatDims (s0 :: rest) (dflt, false)).1 = leadingSum (s0 :: rest) :: s0.dims.tail := by
  unfold concatDims
  simp only [h0, if_true]
  cases hd : s0.dims with
  | nil => exact absurd hd hr
  | cons d tl =>
    rw [hd] at h
    simp only [List.tail_cons] at h
    rw [concatDims_found tl rest d h]
    simp [leadingSum, dim0, hd]

theorem writeAt_fresh (pre new : List Cell) (n off : Nat) (hoff : off = pre.length)
    (hn : new.length ≤ n) :
    writeAt (pre ++ List.replicate n none) off new =
      (pre ++ new) ++ List.replicate (n - new.length) none := by
  subst hoff
  unfold writeAt
  rw [if_pos (by simp; omega)]
  rw [List.take_left, List.drop_append]
  simp [List.drop_replicate]

theorem copyStep_begin (rank : Nat) (st : CopyState) (src : DenseTensor) :
    (copyStep rank st src).begin = st.begin + advance rank src := by
  unfold copyStep advance
  by_cases hr : rank = 0
  · simp [hr]
  · simp only [hr, if_false]
    by_cases h0 : dim0 src.dims = 0
    · simp [h0]
    · simp [h0]

/-- One iteration of the copy loop on a non-empty initialized source whose storage fills the
rows it advances over, when the destination still has fresh room for it. -/
theorem copyStep_fill (rank base : Nat) (st : CopyState) (src : DenseTensor)
    (pre : List Cell) (n : Nat)
    (hinit : src.initialized = true) (hnum : 0 < src.numel) (hadv : advance rank src ≠ 0)
    (hbase : st.dst.rowSize = base)
    (hdata : st.dst.data = pre ++ List.replicate n none)
    (hpre : pre.length = st.begin * base)
    (hroom : src.data.length ≤ n) :
    (copyStep rank st src).dst =
      { st.dst with data := (pre ++ src.data) ++ List.replicate (n - src.data.length) none } := by
  have hend : (if rank = 0 then st.begin + 1 else st.begin + dim0 src.dims) =
      st.begin + advance rank src := by
    unfold advance; split <;> rfl
  unfold copyStep
  simp only [hend]
  rw [if_neg (by omega)]
  have htd : ∀ v : DenseTensor, (TransData src v).data = src.data := by
    intro v
    unfold TransData DenseTensor.IsInitialized
    rw [if_pos ⟨hinit, hnum⟩]
    split <;> rfl
  simp only [DenseTensor.shareBack, htd, hbase, hdata]
  rw [writeAt_fresh pre src.data n (st.begin * base) hpre.symm hroom]

theorem copyLoop_begin (rank : Nat) :
    ∀ (ts : List DenseTensor) (st : CopyState),
      (copyLoop rank st ts).begin = st.begin + advanceSum rank ts := by
  intro ts
  induction ts with
  | nil => intro st; simp [copyLoop, advanceSum]
  | cons t ts ih =>
    intro st
    unfold copyLoop
    rw [ih, copyStep_begin]
    simp [advanceSum, Nat.add_assoc]

/-- The copy loop on non-empty initialized sources writes their storage one after the other
into the fresh part of the destination and touches nothing else of it. -/
theorem copyLoop_fill (rank base : Nat) :
    ∀ (ts : List DenseTensor) (st : CopyState) (pre : List Cell) (n : Nat),
      (∀ t ∈ ts, t.initialized = true ∧ 0 < t.numel ∧ advance rank t ≠ 0 ∧
        t.data.length = advance rank t * base) →
      st.dst.rowSize = base →
      st.dst.data = pre ++ List.replicate n none →
      pre.length = st.begin * base →
      (concatData ts).length ≤ n →
      (copyLoop rank st ts).dst =
        { st.dst with
          data := (pre ++ concatData ts) ++ List.replicate (n - (concatData ts).length) none } := by
  intro ts
  induction ts with
  | nil =>
    intro st pre n _ _ hdata _ _
    simp [copyLoop, concatData, ← hdata]
  | cons t ts ih =>
    intro st pre n hall hbase hdata hpre hroom
    obtain ⟨hinit, hnum, hadv, hlen⟩ := hall t (List.mem_cons_self _ _)
    have hroom1 : t.data.length ≤ n := by
      simp only [concatData, List.length_append] at hroom; omega
    have hstep := copyStep_fill rank base st t pre n hinit hnum hadv hbase hdata hpre hroom1
    unfold copyLoop
    have hb : (copyStep rank st t).begin = st.begin + advance rank t := copyStep_begin rank st t
    rw [ih (copyStep rank st t) (pre ++ t.data) (n - t.data.length)
      (fun u hu => hall u (List.mem_cons_of_mem _ hu))
      (by rw [hstep]; exact hbase)
      (by rw [hstep])
      (by rw [hb, List.length_append, hpre, hlen, Nat.add_mul])
      (by simp only [concatData, List.length_append] at hroom; omega)]
    rw [hstep]
    simp only [concatData, List.length_append, List.append_assoc, Nat.sub_sub]

theorem concatData_length (rank base : Nat) (ts : List DenseTensor)
    (h : ∀ t ∈ ts, t.data.length = advance rank t * base) :
    (concatData ts).length = advanceSum rank ts * base := by
  induction ts with
  | nil => simp [concatData, advanceSum]
  | cons t ts ih =>
    simp only [concatData, List.length_append, advanceSum, List.map_cons, List.sum_cons,
      Nat.add_mul]
    rw [h t (List.mem_cons_self _ _), ih (fun u hu => h u (List.mem_cons_of_mem _ hu))]
    rfl

/-- Rows `[a_0 + ... + a_(k-1), a_0 + ... + a_k)` of the concatenated storage are the storage
of source `k`, `a_i` being the advance of source `i`. -/
theorem concatData_rows (rank base : Nat) :
    ∀ (ts : List DenseTensor) (k : Nat) (hk : k < ts.length),
      (∀ t ∈ ts, t.data.length = advance rank t * base) →
      ((concatData ts).drop (advanceSum rank (ts.take k) * base)).take
          ((advanceSum rank (ts.take (k + 1)) - advanceSum rank (ts.take k)) * base) =
        (ts.get ⟨k, hk⟩).data := by
  intro ts
  induction ts with
  | nil => intro k hk; simp at hk
  | cons t ts ih =>
    intro k hk h
    have ht := h t (List.mem_cons_self _ _)
    cases k with
    | zero =>
      simp only [List.take_zero, advanceSum, List.map_nil, List.sum_nil, Nat.zero_mul,
        List.drop_zero, List.take_succ_cons, List.map_cons, List.sum_cons, Nat.add_zero,
        Nat.sub_zero, concatData, List.get_cons_zero]
      rw [← ht, List.take_left]
      rfl
    | succ k =>
      have hk2 : k < ts.length := by simpa using hk
      have := ih k hk2 (fun u hu => h u (List.mem_cons_of_mem _ hu))
      simp only [List.take_succ_cons, advanceSum, List.map_cons, List.sum_cons, concatData,
        List.get_cons_succ] at this ⊢
      rw [Nat.add_mul, ← ht, List.drop_append, Nat.add_sub_add_left]
      exact this

/-- A merge whose checks pass and whose sources are all non-empty, initialized and fill the
rows they advance over: the destination holds the sources' storage in order. -/
theorem merge_fill (dflt : DDim) (offset_ : Nat) (s0 : DenseTensor) (rest : List DenseTensor)
    (dst0 : DenseTensor) (new_dim : DDim) (base : Nat)
    (hchk : checkSources (mergeReference dflt s0 (s0 :: rest)).new_type
      (mergeReference dflt s0 (s0 :: rest)).new_layout
      (mergeReference dflt s0 (s0 :: rest)).check_dim
      (mergeReference dflt s0 (s0 :: rest)).new_lod offset_ rest = .ok ())
    (hdim : (if s0.dims.length = 0 then [(s0 :: rest).length]
      else (concatDims (s0 :: rest) (dflt, false)).1) = new_dim)
    (hbase : new_dim.tail.prod = base)
    (hprod : new_dim.prod = advanceSum s0.dims.length (s0 :: rest) * base)
    (hsrc : ∀ t ∈ s0 :: rest, t.initialized = true ∧ 0 < t.numel ∧
      advance s0.dims.length t ≠ 0 ∧ t.data.length = advance s0.dims.length t * base) :
    FetchMergedLodTensor dflt offset_ (s0 :: rest) dst0 = .ok
      { dst0 with
        dims := new_dim
        layout := s0.layout
        lod := s0.lod
        place := if is_gpu_place s0.place = true then .CUDAPinnedPlace else .CPUPlace
        dtype := s0.dtype
        initialized := true
        data := concatData (s0 :: rest) } := by
  unfold FetchMergedLodTensor mergeRun
  simp only [hchk, bind, Except.bind, pure, Except.pure, Except.map, hdim]
  have hlen : (concatData (s0 :: rest)).length = new_dim.prod := by
    rw [hprod]
    exact concatData_length s0.dims.length base (s0 :: rest) (fun t ht => (hsrc t ht).2.2.2)
  rw [copyLoop_fill s0.dims.length base (s0 :: rest) _ [] new_dim.prod hsrc
    (by simp [DenseTensor.rowSize, hbase]) (by simp) (by simp) (by omega)]
  simp [hlen]

theorem advanceSum_zero (ts : List DenseTensor) : advanceSum 0 ts = ts.length := by
  induction ts with
  | nil => rfl
  | cons t ts ih =>
    simp only [advanceSum, List.map_cons, List.sum_cons, List.length_cons] at ih ⊢
    rw [ih]; simp [advance]; omega

/-- C2, with the agreement on metadata size that the checks demand: for a non-empty list of
`N` initialized rank-0 sources of the same element type, layout and nested-sequence metadata
size, `FetchMergedLodTensor` succeeds, the destination has shape `[N]`, and destination
element `i` is the value of source `i`. -/
theorem C2_stack_scalars (dflt : DDim) (offset_ : Nat) (srcs : List DenseTensor)
    (dst0 : DenseTensor) (hne : srcs ≠ [])
    (hsrc : ∀ t ∈ srcs, t.initialized = true ∧ t.dims = [] ∧ t.WellFormed)
    (hshare : ∀ s ∈ srcs, ∀ t ∈ srcs, s.dtype = t.dtype ∧ s.layout = t.layout ∧
      s.lod.length = t.lod.length) :
    ∃ dst, FetchMergedLodTensor dflt offset_ srcs dst0 = .ok dst ∧
      dst.dims = [srcs.length] ∧
      ∀ (i : Nat) (hi : i < srcs.length),
        ∃ v, (srcs.get ⟨i, hi⟩).data = [v] ∧ dst.data[i]? = some v := by
  cases srcs with
  | nil => exact absurd rfl hne
  | cons s0 rest =>
    have hs0 := hsrc s0 (List.mem_cons_self _ _)
    have hrank : s0.dims.length = 0 := by rw [hs0.2.1]; rfl
    have hnum : ∀ t ∈ s0 :: rest, t.numel = 1 := by
      intro t ht; unfold DenseTensor.numel; rw [(hsrc t ht).2.1]; rfl
    have hne0 : nonEmptyInit s0 = true :=
      (nonEmptyInit_iff s0).2 ⟨by rw [hnum s0 (List.mem_cons_self _ _)]; decide, hs0.1⟩
    have hfill : ∀ t ∈ s0 :: rest, t.initialized = true ∧ 0 < t.numel ∧
        advance s0.dims.length t ≠ 0 ∧ t.data.length = advance s0.dims.length t * 1 := by
      intro t ht
      obtain ⟨hi, _, hw⟩ := hsrc t ht
      refine ⟨hi, by rw [hnum t ht]; decide, by simp [advance, hrank], ?_⟩
      rw [hw hi, hnum t ht]; simp [advance, hrank]
    have hchk : checkSources (mergeReference dflt s0 (s0 :: rest)).new_type
        (mergeReference dflt s0 (s0 :: rest)).new_layout
        (mergeReference dflt s0 (s0 :: rest)).check_dim
        (mergeReference dflt s0 (s0 :: rest)).new_lod offset_ rest = .ok () := by
      simp only [mergeReference, selectReference_head dflt s0 rest hne0]
      rw [checkSources_ok_iff]
      intro t ht
      have hm : t ∈ s0 :: rest := List.mem_cons_of_mem _ ht
      have hsh := hshare t hm s0 (List.mem_cons_self _ _)
      rw [checkTensorAttrs_ok_iff]
      refine ⟨Or.inr ⟨hsh.1, hsh.2.1⟩, ?_, ?_, hsh.2.2⟩
      · rw [(hsrc t hm).2.1, hs0.2.1]
      · intro j hj hlt
        rw [hs0.2.1] at hlt
        simp at hlt
    have hdim : (if s0.dims.length = 0 then [(s0 :: rest).length]
        else (concatDims (s0 :: rest) (dflt, false)).1) = [(s0 :: rest).length] := by
      rw [if_pos hrank]
    have hmerge := merge_fill dflt offset_ s0 rest dst0 [(s0 :: rest).length] 1 hchk hdim
      (by simp) (by rw [hrank, advanceSum_zero]; simp) hfill
    refine ⟨_, hmerge, rfl, ?_⟩
    intro i hi
    have hrows := concatData_rows s0.dims.length 1 (s0 :: rest) i hi
      (fun t ht => (hfill t ht).2.2.2)
    rw [hrank, advanceSum_zero, advanceSum_zero] at hrows
    have hl1 : (List.take i (s0 :: rest)).length = i := by
      rw [List.length_take]; omega
    have hl2 : (List.take (i + 1) (s0 :: rest)).length = i + 1 := by
      rw [List.length_take]; omega
    rw [hl1, hl2] at hrows
    simp only [Nat.add_sub_cancel_left, Nat.mul_one] at hrows
    have hlen1 : ((s0 :: rest).get ⟨i, hi⟩).data.length = 1 := by
      have := (hfill _ (List.get_mem (s0 :: rest) i hi)).2.2.2
      simpa [advance, hrank] using this
    obtain ⟨v, hv⟩ : ∃ v, ((s0 :: rest).get ⟨i, hi⟩).data = [v] := by
      cases hd : ((s0 :: rest).get ⟨i, hi⟩).data with
      | nil => rw [hd] at hlen1; simp at hlen1
      | cons v vs =>
        cases vs with
        | nil => exact ⟨v, rfl⟩
        | cons w ws => rw [hd] at hlen1; simp at hlen1
    refine ⟨v, hv, ?_⟩
    rw [hv] at hrows
    have h0 := congrArg (fun l : List Cell => l[0]?) hrows
    simpa [List.getElem?_take, List.getElem?_drop] using h0

/-- The scenario of C2: three scalars 2, 4, 6 stack into shape `[3]` with these values. -/
theorem C2_stack_scalars_witness :
    ∃ dst, FetchMergedLodTensor [0] 0
        [cpuTensor [] [] [2], cpuTensor [] [] [4], cpuTensor [] [] [6]] sampleFresh = .ok dst ∧
      dst.dims = [3] ∧
      dst.data[0]? = some (some 2) ∧ dst.data[1]? = some (some 4) ∧
      dst.data[2]? = some (some 6) := by
  obtain ⟨dst, h1, h2, h3⟩ := C2_stack_scalars [0] 0
    [cpuTensor [] [] [2], cpuTensor [] [] [4], cpuTensor [] [] [6]] sampleFresh
    (by decide) (by decide) (by decide)
  refine ⟨dst, h1, h2, ?_, ?_, ?_⟩
  · obtain ⟨v, hv, hd⟩ := h3 0 (by decide)
    rw [hd]; cases hv; rfl
  · obtain ⟨v, hv, hd⟩ := h3 1 (by decide)
    rw [hd]; cases hv; rfl
  · obtain ⟨v, hv, hd⟩ := h3 2 (by decide)
    rw [hd]; cases hv; rfl

/-- C2 as stated fails: two initialized rank-0 sources of the same element type and layout,
one without nested-sequence metadata and one with one level of it, do not merge; the
metadata-size check throws. -/
theorem C2_stack_scalars_counterexample :
    (∀ t ∈ [cpuTensor [] [] [2], cpuTensor [] [[0, 1]] [4]],
      t.initialized = true ∧ t.dims = [] ∧ t.WellFormed) ∧
    (∀ s ∈ [cpuTensor [] [] [2], cpuTensor [] [[0, 1]] [4]],
      ∀ t ∈ [cpuTensor [] [] [2], cpuTensor [] [[0, 1]] [4]],
        s.dtype = t.dtype ∧ s.layout = t.layout) ∧
    FetchMergedLodTensor [0] 0 [cpuTensor [] [] [2], cpuTensor [] [[0, 1]] [4]] sampleFresh =
      .error (.InvalidArgument .lod 0) := by
  decide

/-- C7: `CheckTensorAttrs` succeeds exactly when (the candidate is empty or uninitialized, or
its element type and layout equal the reference's) and its dimension count equals the
reference's and every dimension at index 1 or more equals the reference's and its
nested-sequence metadata size equals the reference's. The leading dimension is never
compared; an empty or uninitialized candidate is exempt from the type and layout tests only. -/
theorem C7_CheckTensorAttrs_succeeds_iff (tensor : DenseTensor) (type : VarType)
    (layout : DataLayout) (dims : DDim) (lod : LoD) (offset : Nat) :
    CheckTensorAttrs tensor type layout dims lod offset = .ok () ↔
      ((tensor.numel = 0 ∨ tensor.initialized = false) ∨
          (tensor.dtype = type ∧ tensor.layout = layout)) ∧
        tensor.dims.length = dims.length ∧
        (∀ j, 1 ≤ j → j < dims.length → tensor.dims.getD j 0 = dims.getD j 0) ∧
        tensor.lod.length = lod.length :=
  checkTensorAttrs_ok_iff tensor type layout dims lod offset

theorem copyLoop_append (rank : Nat) :
    ∀ (a b : List DenseTensor) (st : CopyState),
      copyLoop rank st (a ++ b) = copyLoop rank (copyLoop rank st a) b := by
  intro a
  induction a with
  | nil => intro b st; rfl
  | cons t a ih =>
    intro b st
    show copyLoop rank (copyStep rank st t) (a ++ b) = _
    rw [ih]
    rfl

theorem copyStep_zero (rank : Nat) (st : CopyState) (src : DenseTensor)
    (hrank : 1 ≤ rank) (hzero : dim0 src.dims = 0) : copyStep rank st src = st := by
  unfold copyStep
  have hr : rank ≠ 0 := by omega
  simp [hr, hzero]

/-- C8: in the copy loop for rank at least 1, a source whose leading dimension is 0 causes no
transfer (no slice is taken, the destination is untouched) and leaves the offset `begin`
where it was, so the next source is copied to the same starting offset; the whole loop runs
as if that source were not in the list. -/
theorem C8_zero_leading_source_skipped (rank : Nat) (st : CopyState) (src : DenseTensor)
    (hrank : 1 ≤ rank) (hzero : dim0 src.dims = 0) :
    (copyStep rank st src).slices = st.slices ∧
      (copyStep rank st src).dst = st.dst ∧
      (copyStep rank st src).begin = st.begin ∧
      (∀ next, copyStep rank (copyStep rank st src) next = copyStep rank st next) ∧
      ∀ before after, copyLoop rank st (before ++ src :: after) =
        copyLoop rank st (before ++ after) := by
  have h := copyStep_zero rank st src hrank hzero
  refine ⟨by rw [h], by rw [h], by rw [h], fun next => by rw [h], ?_⟩
  intro before after
  rw [copyLoop_append, copyLoop_append]
  simp only [copyLoop]
  rw [copyStep_zero rank _ src hrank hzero]

/-- A run of C8: after two rows are written, an empty `[0, 2]` source is skipped and the
following `[1, 2]` source lands in row 2. -/
theorem C8_zero_leading_source_skipped_witness :
    (copyStep 2 sampleCopyState (cpuTensor [0, 2] [] [])).slices = [(0, 2)] ∧
      (copyStep 2 sampleCopyState (cpuTensor [0, 2] [] [])).begin = 2 ∧
      (copyLoop 2 sampleCopyState [cpuTensor [0, 2] [] [], cpuTensor [1, 2] [] [5, 6]]).dst.data =
        [some 1, some 2, some 3, some 4, some 5, some 6] := by
  have h := C8_zero_leading_source_skipped 2 sampleCopyState (cpuTensor [0, 2] [] [])
    (by decide) (by decide)
  refine ⟨h.1, h.2.2.1, ?_⟩
  have h2 := h.2.2.2.2 [] [cpuTensor [1, 2] [] [5, 6]]
  simp only [List.nil_append] at h2
  rw [h2]
  decide

theorem selectReference_eq_find (dflt : DDim) (ts : List DenseTensor) :
    selectReference dflt ts =
      match ts.find? nonEmptyInit with
      | some r => (r.dims, r.dtype, r.layout)
      | none => (dflt, .FP32, .UNDEFINED) := by
  induction ts with
  | nil => rfl
  | cons t ts ih =>
    unfold selectReference
    by_cases h : nonEmptyInit t = true
    · simp [h, List.find?]
    · simp only [h, if_false, List.find?, ih]
      simp at h
      simp [h]

/-- A failed check loop is the failure of `FetchMergedLodTensor`. -/
theorem merge_error_of_check (dflt : DDim) (offset_ : Nat) (s0 : DenseTensor)
    (rest : List DenseTensor) (dst0 : DenseTensor) (e : Err)
    (h : checkSources (mergeReference dflt s0 (s0 :: rest)).new_type
      (mergeReference dflt s0 (s0 :: rest)).new_layout
      (mergeReference dflt s0 (s0 :: rest)).check_dim
      (mergeReference dflt s0 (s0 :: rest)).new_lod offset_ rest = .error e) :
    FetchMergedLodTensor dflt offset_ (s0 :: rest) dst0 = .error e := by
  unfold FetchMergedLodTensor mergeRun
  simp only [h, bind, Except.bind, Except.map]

/-- When the check loop lets the sources through, every non-empty initialized source has the
element type, layout, dimension count and trailing dimensions of the first such source, and
the metadata size of the source at position 0. -/
theorem checked_sources_agree (dflt : DDim) (offset_ : Nat) (s0 : DenseTensor)
    (rest : List DenseTensor)
    (h : checkSources (mergeReference dflt s0 (s0 :: rest)).new_type
      (mergeReference dflt s0 (s0 :: rest)).new_layout
      (mergeReference dflt s0 (s0 :: rest)).check_dim
      (mergeReference dflt s0 (s0 :: rest)).new_lod offset_ rest = .ok ())
    (t : DenseTensor) (ht : t ∈ s0 :: rest) (hn : nonEmptyInit t = true) :
    t.dtype = (mergeReference dflt s0 (s0 :: rest)).new_type ∧
      t.layout = (mergeReference dflt s0 (s0 :: rest)).new_layout ∧
      t.dims.length = (mergeReference dflt s0 (s0 :: rest)).check_dim.length ∧
      t.dims.tail = (mergeReference dflt s0 (s0 :: rest)).check_dim.tail ∧
      t.lod.length = s0.lod.length := by
  rcases List.mem_cons.1 ht with rfl | hr
  · simp [mergeReference, selectReference_head dflt t rest hn]
  · rw [checkSources_ok_iff] at h
    obtain ⟨h1, h2, h3, h4⟩ := (checkTensorAttrs_ok_iff _ _ _ _ _ _).1 (h t hr)
    have hn2 := (nonEmptyInit_iff t).1 hn
    have h1b : t.dtype = (mergeReference dflt s0 (s0 :: rest)).new_type ∧
        t.layout = (mergeReference dflt s0 (s0 :: rest)).new_layout := by
      rcases h1 with (h0 | h0) | h0
      · exact absurd h0 hn2.1
      · rw [hn2.2] at h0; cases h0
      · exact h0
    exact ⟨h1b.1, h1b.2, h2, tail_eq_of_getD _ _ h2 h3, h4⟩

/-- The check loop decides whether `FetchMergedLodTensor` succeeds. -/
theorem merge_ok_of_check (dflt : DDim) (offset_ : Nat) (s0 : DenseTensor)
    (rest : List DenseTensor) (dst0 : DenseTensor)
    (h : checkSources (mergeReference dflt s0 (s0 :: rest)).new_type
      (mergeReference dflt s0 (s0 :: rest)).new_layout
      (mergeReference dflt s0 (s0 :: rest)).check_dim
      (mergeReference dflt s0 (s0 :: rest)).new_lod offset_ rest = .ok ()) :
    ∃ dst, FetchMergedLodTensor dflt offset_ (s0 :: rest) dst0 = .ok dst := by
  unfold FetchMergedLodTensor mergeRun
  simp only [h, bind, Except.bind, Except.map, pure, Except.pure]
  exact ⟨_, rfl⟩

/-- C10, as the code selects the reference: the reference element type and layout handed to
the consistency checker are those of the first source that is non-empty and initialized, and
32-bit float and undefined layout when there is none; the reference nested-sequence metadata
is that of the source at position 0 in every case; the merge fails exactly when a check
against this reference fails. -/
theorem C10_reference_selection (dflt : DDim) (offset_ : Nat) (s0 : DenseTensor)
    (rest : List DenseTensor) (dst0 : DenseTensor) :
    (∀ r, (s0 :: rest).find? nonEmptyInit = some r →
        (mergeReference dflt s0 (s0 :: rest)).new_type = r.dtype ∧
        (mergeReference dflt s0 (s0 :: rest)).new_layout = r.layout) ∧
      ((s0 :: rest).find? nonEmptyInit = none →
        (mergeReference dflt s0 (s0 :: rest)).new_type = .FP32 ∧
        (mergeReference dflt s0 (s0 :: rest)).new_layout = .UNDEFINED) ∧
      (mergeReference dflt s0 (s0 :: rest)).new_lod = s0.lod ∧
      ∀ e, FetchMergedLodTensor dflt offset_ (s0 :: rest) dst0 = .error e ↔
        checkSources (mergeReference dflt s0 (s0 :: rest)).new_type
          (mergeReference dflt s0 (s0 :: rest)).new_layout
          (mergeReference dflt s0 (s0 :: rest)).check_dim
          (mergeReference dflt s0 (s0 :: rest)).new_lod offset_ rest = .error e := by
  refine ⟨?_, ?_, rfl, ?_⟩
  · intro r hr
    simp only [mergeReference, selectReference_eq_find, hr, and_self]
  · intro hr
    simp only [mergeReference, selectReference_eq_find, hr, and_self]
  · intro e
    constructor
    · intro h
      cases hc : checkSources (mergeReference dflt s0 (s0 :: rest)).new_type
          (mergeReference dflt s0 (s0 :: rest)).new_layout
          (mergeReference dflt s0 (s0 :: rest)).check_dim
          (mergeReference dflt s0 (s0 :: rest)).new_lod offset_ rest with
      | error e2 =>
        rw [merge_error_of_check dflt offset_ s0 rest dst0 e2 hc] at h
        cases h
        rfl
      | ok u =>
        obtain ⟨dst, hd⟩ := merge_ok_of_check dflt offset_ s0 rest dst0 hc
        rw [hd] at h
        cases h
    · exact merge_error_of_check dflt offset_ s0 rest dst0 e

/-- C10 as stated fails: with an empty source at position 0 carrying no nested-sequence
metadata, followed by two non-empty initialized sources with one level of it, the first
non-empty initialized source is the one at position 1, but the reference metadata is that of
position 0; the source at position 1 then fails the metadata-size check. -/
theorem C10_reference_selection_counterexample :
    [cpuTensor [0] [] [], cpuTensor [2] [[0, 2]] [1, 2], cpuTensor [1] [[0, 1]] [3]].find?
        nonEmptyInit = some (cpuTensor [2] [[0, 2]] [1, 2]) ∧
      (mergeReference [0] (cpuTensor [0] [] [])
        [cpuTensor [0] [] [], cpuTensor [2] [[0, 2]] [1, 2], cpuTensor [1] [[0, 1]] [3]]).new_lod ≠
        (cpuTensor [2] [[0, 2]] [1, 2]).lod ∧
      FetchMergedLodTensor [0] 0
        [cpuTensor [0] [] [], cpuTensor [2] [[0, 2]] [1, 2], cpuTensor [1] [[0, 1]] [3]]
        sampleFresh = .error (.InvalidArgument .lod 0) := by
  decide

/-! ## Properties of RunImpl -/

theorem getSrcVars_found (scopes : ScopeLookup) :
    ∀ (inputs : List VarHandle),
      (∀ v ∈ inputs, scopes v.scope_idx v.name ≠ none) →
      ∃ src_vars, getSrcVars scopes inputs = .ok src_vars := by
  intro inputs
  induction inputs with
  | nil => intro _; exact ⟨[], rfl⟩
  | cons i inputs ih =>
    intro h
    obtain ⟨vs, hvs⟩ := ih (fun v hv => h v (List.mem_cons_of_mem _ hv))
    have hi := h i (List.mem_cons_self _ _)
    cases hl : scopes i.scope_idx i.name with
    | none => exact absurd hl hi
    | some v =>
      refine ⟨v :: vs, ?_⟩
      unfold getSrcVars
      simp only [hl, hvs, bind, Except.bind, pure, Except.pure]

theorem getSrcVars_missing (scopes : ScopeLookup) :
    ∀ (inputs : List VarHandle),
      (∃ v ∈ inputs, scopes v.scope_idx v.name = none) →
      ∃ name, getSrcVars scopes inputs = .error (.NotFound name) := by
  intro inputs
  induction inputs with
  | nil => intro h; obtain ⟨v, hv, _⟩ := h; simp at hv
  | cons i inputs ih =>
    intro h
    unfold getSrcVars
    cases hl : scopes i.scope_idx i.name with
    | none => exact ⟨i.name, rfl⟩
    | some v =>
      obtain ⟨w, hw, hnone⟩ := h
      rcases List.mem_cons.1 hw with rfl | hw2
      · rw [hl] at hnone; cases hnone
      · obtain ⟨name, hname⟩ := ih ⟨w, hw2, hnone⟩
        exact ⟨name, by simp only [hname, bind, Except.bind]⟩

theorem mergeRun_error (dflt : DDim) (offset_ : Nat) (srcs : List DenseTensor)
    (dst0 : DenseTensor) (e : Err)
    (h : FetchMergedLodTensor dflt offset_ srcs dst0 = .error e) :
    e = .Undefined ∨ ∃ what, e = .InvalidArgument what offset_ := by
  cases srcs with
  | nil =>
    left
    simp only [FetchMergedLodTensor, mergeRun, Except.map] at h
    cases h; rfl
  | cons s0 rest =>
    right
    cases hc : checkSources (mergeReference dflt s0 (s0 :: rest)).new_type
        (mergeReference dflt s0 (s0 :: rest)).new_layout
        (mergeReference dflt s0 (s0 :: rest)).check_dim
        (mergeReference dflt s0 (s0 :: rest)).new_lod offset_ rest with
    | error e2 =>
      rw [merge_error_of_check dflt offset_ s0 rest dst0 e2 hc] at h
      cases h
      exact checkSources_error _ _ _ _ _ _ _ hc
    | ok u =>
      obtain ⟨dst, hd⟩ := merge_ok_of_check dflt offset_ s0 rest dst0 hc
      rw [hd] at h
      cases h

theorem getTensors_error (vs : List Variable) (e : Err) (h : getTensors vs = .error e) :
    e = .WrongType := by
  induction vs with
  | nil => simp [getTensors] at h
  | cons v vs ih =>
    cases v with
    | tensor t =>
      unfold getTensors at h
      cases hg : getTensors vs with
      | error e2 =>
        simp only [hg, bind, Except.bind] at h
        cases h
        exact ih hg
      | ok ts => simp [hg, bind, Except.bind, pure, Except.pure] at h
    | tensorArray a =>
      simp only [getTensors] at h
      cases h; rfl

theorem getArrays_error (vs : List Variable) (e : Err) (h : getArrays vs = .error e) :
    e = .WrongType := by
  induction vs with
  | nil => simp [getArrays] at h
  | cons v vs ih =>
    cases v with
    | tensorArray t =>
      unfold getArrays at h
      cases hg : getArrays vs with
      | error e2 =>
        simp only [hg, bind, Except.bind] at h
        cases h
        exact ih hg
      | ok ts => simp [hg, bind, Except.bind, pure, Except.pure] at h
    | tensor a =>
      simp only [getArrays] at h
      cases h; rfl

theorem elementsAt_error (i : Nat) (as : List (List DenseTensor)) (e : Err)
    (h : elementsAt i as = .error e) : e = .Undefined := by
  induction as with
  | nil => simp [elementsAt] at h
  | cons a as ih =>
    unfold elementsAt at h
    cases hg : a.get? i with
    | none => simp only [hg] at h; cases h; rfl
    | some t =>
      simp only [hg] at h
      cases he : elementsAt i as with
      | error e2 =>
        simp only [he, bind, Except.bind] at h
        cases h
        exact ih he
      | ok ts => simp [he, bind, Except.bind, pure, Except.pure] at h

theorem mergeArrays_error (D : Defaults) (offset_ : Nat) (as : List (List DenseTensor))
    (n : Nat) : ∀ (i : Nat) (e : Err), mergeArrays D offset_ as i n = .error e →
      e = .Undefined ∨ ∃ what, e = .InvalidArgument what offset_ := by
  induction n with
  | zero => intro i e h; simp [mergeArrays] at h
  | succ n ih =>
    intro i e h
    unfold mergeArrays at h
    cases he : elementsAt i as with
    | error e2 =>
      simp only [he, bind, Except.bind] at h
      cases h
      exact Or.inl (elementsAt_error i as _ he)
    | ok srcs =>
      simp only [he, bind, Except.bind] at h
      cases hm : FetchMergedLodTensor D.ddim offset_ srcs D.tensor with
      | error e2 =>
        simp only [hm] at h
        cases h
        exact mergeRun_error _ _ _ _ _ hm
      | ok d =>
        simp only [hm] at h
        cases hr : mergeArrays D offset_ as (i + 1) n with
        | error e2 =>
          simp only [hr] at h
          cases h
          exact ih _ _ hr
        | ok ds => simp [hr, pure, Except.pure] at h

theorem assignSlot_error (data : FetchResultType) (val : List FetchType) (offset_ : Nat)
    (x : FetchType) (e : Err) (h : (assignSlot data val offset_ x).error = some e) :
    e = .OutOfRange := by
  unfold assignSlot at h
  split at h
  · cases h
  · simp only [Option.some.injEq] at h
    exact h.symm

theorem runMerged_error (D : Defaults) (offset_ : Nat) (src_vars : List Variable)
    (data : FetchResultType) (e : Err) (h : (runMerged D offset_ src_vars data).error = some e) :
    ∀ name, e ≠ .NotFound name := by
  intro name hname
  subst hname
  unfold runMerged at h
  split at h
  · cases h
  · split at h
    · cases h
    · split at h
      · rename_i e2 hg
        simp only [Option.some.injEq] at h
        subst h
        cases getTensors_error _ _ hg
      · split at h
        · rename_i e2 hm
          simp only [Option.some.injEq] at h
          subst h
          rcases mergeRun_error _ _ _ _ _ hm with h1 | ⟨w, h1⟩ <;> cases h1
        · cases assignSlot_error _ _ _ _ _ h
    · split at h
      · rename_i e2 hg
        simp only [Option.some.injEq] at h
        subst h
        cases getArrays_error _ _ hg
      · split at h
        · rename_i e2 hm
          simp only [Option.some.injEq] at h
          subst h
          rcases mergeArrays_error _ _ _ _ _ _ hm with h1 | ⟨w, h1⟩ <;> cases h1
        · cases assignSlot_error _ _ _ _ _ h

theorem runUnmerged_error (D : Defaults) (offset_ : Nat) (src_vars : List Variable)
    (data : FetchResultType) (e : Err)
    (h : (runUnmerged D offset_ src_vars data).error = some e) :
    ∀ name, e ≠ .NotFound name := by
  intro name hname
  subst hname
  unfold runUnmerged at h
  split at h
  · cases h
  · split at h <;> cases h

/-- C6: in either mode, when the scope lookup returns null for at least one declared input,
`RunImpl` fails with `NotFound` and the result container is as it was before the run; when
no lookup returns null, `RunImpl` raises no `NotFound`. -/
theorem C6_variable_not_found (D : Defaults) (scopes : ScopeLookup) (h : FetchAsyncOpHandle)
    (data : FetchResultType) :
    ((∃ v ∈ h.inputs_, scopes v.scope_idx v.name = none) →
        ∃ name, RunImpl D scopes h data = { error := some (.NotFound name), data := data }) ∧
      ((∀ v ∈ h.inputs_, scopes v.scope_idx v.name ≠ none) →
        ∀ name, (RunImpl D scopes h data).error ≠ some (.NotFound name)) := by
  constructor
  · intro hmiss
    obtain ⟨name, hname⟩ := getSrcVars_missing scopes h.inputs_ hmiss
    exact ⟨name, by simp only [RunImpl, hname]⟩
  · intro hall name herr
    obtain ⟨vars, hvars⟩ := getSrcVars_found scopes h.inputs_ hall
    simp only [RunImpl, hvars] at herr
    split at herr
    · exact runMerged_error D h.offset_ vars data _ herr name rfl
    · exact runUnmerged_error D h.offset_ vars data _ herr name rfl

/-- A run of C6: the second input names a variable that scope 1 does not hold; the run fails
with `NotFound` for that name and the container keeps its two slots as they were. -/
theorem C6_variable_not_found_witness :
    RunImpl sampleDefaults sampleScopes
        { inputs_ := [⟨0, "x"⟩, ⟨1, "y"⟩], offset_ := 1, return_merged_ := true }
        (.merged [.tensor sampleFresh, .tensor sampleFresh]) =
      { error := some (.NotFound "y"), data := .merged [.tensor sampleFresh, .tensor sampleFresh] } := by
  obtain ⟨name, hname⟩ := (C6_variable_not_found sampleDefaults sampleScopes
    { inputs_ := [⟨0, "x"⟩, ⟨1, "y"⟩], offset_ := 1, return_merged_ := true }
    (.merged [.tensor sampleFresh, .tensor sampleFresh])).1 ⟨⟨1, "y"⟩, by decide, by decide⟩
  rw [hname]
  have : (RunImpl sampleDefaults sampleScopes
      { inputs_ := [⟨0, "x"⟩, ⟨1, "y"⟩], offset_ := 1, return_merged_ := true }
      (.merged [.tensor sampleFresh, .tensor sampleFresh])).error = some (.NotFound "y") := by
    decide
  rw [hname] at this
  simp only [Option.some.injEq, Err.NotFound.injEq] at this
  rw [this]

/-- One iteration of the copy loop changes nothing of the destination but its storage. -/
theorem copyStep_attrs (rank : Nat) (st : CopyState) (src : DenseTensor) :
    (copyStep rank st src).dst.layout = st.dst.layout ∧
      (copyStep rank st src).dst.lod = st.dst.lod ∧
      (copyStep rank st src).dst.place = st.dst.place ∧
      (copyStep rank st src).dst.dtype = st.dst.dtype ∧
      (copyStep rank st src).dst.dims = st.dst.dims := by
  unfold copyStep
  dsimp only
  generalize (if rank = 0 then st.begin + 1 else st.begin + dim0 src.dims) = e
  by_cases h : e = st.begin
  · simp only [h, if_true, and_self]
  · simp only [h, if_false, DenseTensor.shareBack, and_self]

/-- The copy loop changes nothing of the destination but its storage. -/
theorem copyLoop_attrs (rank : Nat) :
    ∀ (ts : List DenseTensor) (st : CopyState),
      (copyLoop rank st ts).dst.layout = st.dst.layout ∧
        (copyLoop rank st ts).dst.lod = st.dst.lod ∧
        (copyLoop rank st ts).dst.place = st.dst.place ∧
        (copyLoop rank st ts).dst.dtype = st.dst.dtype ∧
        (copyLoop rank st ts).dst.dims = st.dst.dims := by
  intro ts
  induction ts with
  | nil => intro st; exact ⟨rfl, rfl, rfl, rfl, rfl⟩
  | cons t ts ih =>
    intro st
    unfold copyLoop
    obtain ⟨h1, h2, h3, h4, h5⟩ := ih (copyStep rank st t)
    obtain ⟨g1, g2, g3, g4, g5⟩ := copyStep_attrs rank st t
    exact ⟨h1.trans g1, h2.trans g2, h3.trans g3, h4.trans g4, h5.trans g5⟩

/-- The attributes of the destination of a successful merge: layout, metadata and element
type are those of the source at position 0, the place follows the place of that source, and
the dimensions are the computed `new_dim`. -/
theorem merge_dst_attrs (dflt : DDim) (offset_ : Nat) (s0 : DenseTensor)
    (rest : List DenseTensor) (dst0 dst : DenseTensor)
    (h : FetchMergedLodTensor dflt offset_ (s0 :: rest) dst0 = .ok dst) :
    dst.layout = s0.layout ∧ dst.lod = s0.lod ∧
      dst.place = (if is_gpu_place s0.place = true then Place.CUDAPinnedPlace
        else Place.CPUPlace) ∧
      dst.dtype = s0.dtype ∧
      dst.dims = (if s0.dims.length = 0 then [(s0 :: rest).length]
        else (concatDims (s0 :: rest) (dflt, false)).1) := by
  unfold FetchMergedLodTensor mergeRun at h
  cases hc : checkSources (mergeReference dflt s0 (s0 :: rest)).new_type
      (mergeReference dflt s0 (s0 :: rest)).new_layout
      (mergeReference dflt s0 (s0 :: rest)).check_dim
      (mergeReference dflt s0 (s0 :: rest)).new_lod offset_ rest with
  | error e => simp [hc, bind, Except.bind, Except.map] at h
  | ok u =>
    simp only [hc, bind, Except.bind, Except.map, pure, Except.pure, Except.ok.injEq] at h
    subst h
    obtain ⟨h1, h2, h3, h4, h5⟩ := copyLoop_attrs s0.dims.length (s0 :: rest)
      { begin := 0
        dst :=
          { dst0 with
            dims := if s0.dims.length = 0 then [(s0 :: rest).length]
              else (concatDims (s0 :: rest) (dflt, false)).1
            layout := s0.layout
            lod := s0.lod
            place := if is_gpu_place s0.place = true then .CUDAPinnedPlace else .CPUPlace
            dtype := s0.dtype
            initialized := true
            data := List.replicate
              (if s0.dims.length = 0 then [(s0 :: rest).length]
                else (concatDims (s0 :: rest) (dflt, false)).1).prod none }
        slices := [] }
    exact ⟨h1, h2, h3, h4, h5⟩

/-- A successful merge has passed the check loop. -/
theorem check_ok_of_merge (dflt : DDim) (offset_ : Nat) (s0 : DenseTensor)
    (rest : List DenseTensor) (dst0 dst : DenseTensor)
    (h : FetchMergedLodTensor dflt offset_ (s0 :: rest) dst0 = .ok dst) :
    checkSources (mergeReference dflt s0 (s0 :: rest)).new_type
      (mergeReference dflt s0 (s0 :: rest)).new_layout
      (mergeReference dflt s0 (s0 :: rest)).check_dim
      (mergeReference dflt s0 (s0 :: rest)).new_lod offset_ rest = .ok () := by
  cases hc : checkSources (mergeReference dflt s0 (s0 :: rest)).new_type
      (mergeReference dflt s0 (s0 :: rest)).new_layout
      (mergeReference dflt s0 (s0 :: rest)).check_dim
      (mergeReference dflt s0 (s0 :: rest)).new_lod offset_ rest with
  | error e =>
    rw [merge_error_of_check dflt offset_ s0 rest dst0 e hc] at h
    cases h
  | ok u => rfl

/-- C11, as the code sets the destination: after a successful merge the destination's
nested-sequence metadata is that of the source at position 0, which is the metadata reference
of the consistency checks, and it has as many levels as the metadata of the first non-empty
initialized source; when the first non-empty initialized source is the source at position 0,
the destination's layout and metadata are those of that source. -/
theorem C11_destination_layout_and_lod (dflt : DDim) (offset_ : Nat) (s0 : DenseTensor)
    (rest : List DenseTensor) (dst0 dst : DenseTensor)
    (h : FetchMergedLodTensor dflt offset_ (s0 :: rest) dst0 = .ok dst) :
    dst.lod = s0.lod ∧
      dst.lod = (mergeReference dflt s0 (s0 :: rest)).new_lod ∧
      (∀ r, (s0 :: rest).find? nonEmptyInit = some r → dst.lod.length = r.lod.length) ∧
      (nonEmptyInit s0 = true →
        (s0 :: rest).find? nonEmptyInit = some s0 ∧ dst.layout = s0.layout ∧
          dst.lod = s0.lod) := by
  obtain ⟨hlay, hlod, _, _, _⟩ := merge_dst_attrs dflt offset_ s0 rest dst0 dst h
  refine ⟨hlod, hlod, ?_, ?_⟩
  · intro r hr
    have hmem : r ∈ s0 :: rest := List.mem_of_find?_eq_some hr
    have hne : nonEmptyInit r = true := List.find?_some hr
    have hagree := checked_sources_agree dflt offset_ s0 rest
      (check_ok_of_merge dflt offset_ s0 rest dst0 dst h) r hmem hne
    rw [hlod, hagree.2.2.2.2]
  · intro h0
    exact ⟨by simp [List.find?, h0], hlay, hlod⟩

/-- A run of C11: an empty source at position 0 followed by a non-empty one; the destination
carries the metadata of position 0, which has as many levels as that of position 1. -/
theorem C11_destination_layout_and_lod_witness :
    FetchMergedLodTensor [0] 0 [emptyNHWC, cpuTensor [2] [[0, 2]] [1, 2]] sampleFresh =
        .ok { cpuTensor [2] [[0]] [1, 2] with layout := .NHWC } ∧
      ({ cpuTensor [2] [[0]] [1, 2] with layout := .NHWC } : DenseTensor).lod = emptyNHWC.lod ∧
      ({ cpuTensor [2] [[0]] [1, 2] with layout := .NHWC } : DenseTensor).lod.length =
        (cpuTensor [2] [[0, 2]] [1, 2]).lod.length := by
  have h := C11_destination_layout_and_lod [0] 0 emptyNHWC [cpuTensor [2] [[0, 2]] [1, 2]]
    sampleFresh { cpuTensor [2] [[0]] [1, 2] with layout := .NHWC } (by decide)
  exact ⟨by decide, h.1, h.2.2.1 (cpuTensor [2] [[0, 2]] [1, 2]) (by decide)⟩

/-- C11 as stated fails: with an empty source of layout `NHWC` and metadata `[[0]]` at
position 0 and a non-empty initialized source of layout `NCHW` and metadata `[[0, 2]]` at
position 1, the merge succeeds and the destination has the layout and metadata of position 0,
not those of the first non-empty initialized source. -/
theorem C11_destination_layout_and_lod_counterexample :
    [emptyNHWC, cpuTensor [2] [[0, 2]] [1, 2]].find? nonEmptyInit =
        some (cpuTensor [2] [[0, 2]] [1, 2]) ∧
      FetchMergedLodTensor [0] 0 [emptyNHWC, cpuTensor [2] [[0, 2]] [1, 2]] sampleFresh =
        .ok { cpuTensor [2] [[0]] [1, 2] with layout := .NHWC } ∧
      ({ cpuTensor [2] [[0]] [1, 2] with layout := .NHWC } : DenseTensor).layout ≠
        (cpuTensor [2] [[0, 2]] [1, 2]).layout ∧
      ({ cpuTensor [2] [[0]] [1, 2] with layout := .NHWC } : DenseTensor).lod ≠
        (cpuTensor [2] [[0, 2]] [1, 2]).lod := by
  decide

/-- C12, as the code places the destination: after a successful merge the destination is in
pinned host memory exactly when the source at position 0 is accelerator-resident, and in
plain host memory exactly when it is not; a pinned destination therefore implies that some
source is accelerator-resident. -/
theorem C12_destination_place (dflt : DDim) (offset_ : Nat) (s0 : DenseTensor)
    (rest : List DenseTensor) (dst0 dst : DenseTensor)
    (h : FetchMergedLodTensor dflt offset_ (s0 :: rest) dst0 = .ok dst) :
    (dst.place = .CUDAPinnedPlace ↔ is_gpu_place s0.place = true) ∧
      (dst.place = .CPUPlace ↔ is_gpu_place s0.place = false) ∧
      (dst.place = .CUDAPinnedPlace → ∃ t ∈ s0 :: rest, is_gpu_place t.place = true) := by
  obtain ⟨_, _, hplace, _, _⟩ := merge_dst_attrs dflt offset_ s0 rest dst0 dst h
  rw [hplace]
  by_cases hg : is_gpu_place s0.place = true
  · rw [if_pos hg]
    have h2 : Place.CUDAPinnedPlace = Place.CPUPlace ↔ is_gpu_place s0.place = false := by
      constructor
      · intro hc; cases hc
      · intro hc; rw [hg] at hc; cases hc
    exact ⟨⟨fun _ => hg, fun _ => rfl⟩, h2, fun _ => ⟨s0, List.mem_cons_self _ _, hg⟩⟩
  · rw [if_neg hg]
    have hf : is_gpu_place s0.place = false := by simpa using hg
    have h1 : Place.CPUPlace = Place.CUDAPinnedPlace ↔ is_gpu_place s0.place = true := by
      constructor
      · intro hc; cases hc
      · intro hc; exact absurd hc hg
    refine ⟨h1, ⟨fun _ => hf, fun _ => rfl⟩, ?_⟩
    intro hc
    cases hc

/-- A run of C12: two accelerator-resident sources merge into pinned host memory. -/
theorem C12_destination_place_witness :
    FetchMergedLodTensor [0] 0 [gpuTensor [3] [] [1, 2, 3], gpuTensor [5] [] [4, 5, 6, 7, 8]]
        sampleFresh =
        .ok { gpuTensor [8] [] [1, 2, 3, 4, 5, 6, 7, 8] with place := .CUDAPinnedPlace } ∧
      (({ gpuTensor [8] [] [1, 2, 3, 4, 5, 6, 7, 8] with place := .CUDAPinnedPlace } :
          DenseTensor).place = .CUDAPinnedPlace ↔
        is_gpu_place (gpuTensor [3] [] [1, 2, 3]).place = true) :=
  ⟨by decide, (C12_destination_place [0] 0 (gpuTensor [3] [] [1, 2, 3])
    [gpuTensor [5] [] [4, 5, 6, 7, 8]] sampleFresh
    { gpuTensor [8] [] [1, 2, 3, 4, 5, 6, 7, 8] with place := .CUDAPinnedPlace }
    (by decide)).1⟩

/-- C12 as stated fails: a host-resident source at position 0 followed by an
accelerator-resident source merge into plain host memory, although one source of the list is
accelerator-resident. -/
theorem C12_destination_place_counterexample :
    is_gpu_place (gpuTensor [2] [] [2, 3]).place = true ∧
      FetchMergedLodTensor [0] 0 [cpuTensor [1] [] [1], gpuTensor [2] [] [2, 3]] sampleFresh =
        .ok (cpuTensor [3] [] [1, 2, 3]) ∧
      (cpuTensor [3] [] [1, 2, 3]).place = .CPUPlace := by
  decide

/-! ## Error payload, slice bounds and the container after a failure -/

/-- C13, as the code fills the payload: every consistency-check failure of
`FetchMergedLodTensor` carries the node's `offset_`, the index of the fetched variable's
result slot, whatever the position of the offending source in the list; so do the failures
of the single checks of the sources at positions 1, 2, ... -/
theorem C13_error_payload_is_node_offset (dflt : DDim) (offset_ : Nat) (s0 : DenseTensor)
    (rest : List DenseTensor) (dst0 : DenseTensor) :
    (∀ e, FetchMergedLodTensor dflt offset_ (s0 :: rest) dst0 = .error e →
        ∃ what, e = .InvalidArgument what offset_) ∧
      ∀ (i : Nat) (hi : i < rest.length) (e : Err),
        CheckTensorAttrs (rest.get ⟨i, hi⟩) (mergeReference dflt s0 (s0 :: rest)).new_type
            (mergeReference dflt s0 (s0 :: rest)).new_layout
            (mergeReference dflt s0 (s0 :: rest)).check_dim
            (mergeReference dflt s0 (s0 :: rest)).new_lod offset_ = .error e →
          ∃ what, e = .InvalidArgument what offset_ := by
  constructor
  · intro e h
    rcases mergeRun_error dflt offset_ (s0 :: rest) dst0 e h with hu | hi
    · subst hu
      cases hc : checkSources (mergeReference dflt s0 (s0 :: rest)).new_type
          (mergeReference dflt s0 (s0 :: rest)).new_layout
          (mergeReference dflt s0 (s0 :: rest)).check_dim
          (mergeReference dflt s0 (s0 :: rest)).new_lod offset_ rest with
      | error e2 =>
        rw [merge_error_of_check dflt offset_ s0 rest dst0 e2 hc] at h
        cases h
        exact checkSources_error _ _ _ _ _ _ _ hc
      | ok u =>
        obtain ⟨dst, hd⟩ := merge_ok_of_check dflt offset_ s0 rest dst0 hc
        rw [hd] at h
        cases h
    · exact hi
  · intro i hi e h
    exact checkTensorAttrs_error _ _ _ _ _ _ _ h

/-- C13 as stated fails: on a node with offset 5, a shape mismatch of the source at position
1 and, in another list, of the source at position 2 (position 1 passing its check) both
carry index 5 in the error, neither 1 nor 2. -/
theorem C13_error_payload_is_node_offset_counterexample :
    FetchMergedLodTensor [0] 5
        [cpuTensor [1, 2] [] [1, 2], cpuTensor [1, 3] [] [7, 8, 9]] sampleFresh =
        .error (.InvalidArgument .dim 5) ∧
      CheckTensorAttrs (cpuTensor [2, 2] [] [3, 4, 5, 6]) .FP32 .NCHW [1, 2] [] 5 = .ok () ∧
      FetchMergedLodTensor [0] 5
        [cpuTensor [1, 2] [] [1, 2], cpuTensor [2, 2] [] [3, 4, 5, 6],
          cpuTensor [1, 3] [] [7, 8, 9]] sampleFresh =
        .error (.InvalidArgument .dim 5) ∧
      (5 : Nat) ≠ 1 ∧ (5 : Nat) ≠ 2 := by
  decide

/-- The slices taken by the copy loop lie, in order, between the offset it starts from and
that offset plus the sum of the advances of the sources. -/
theorem copyLoop_slices_bound (rank : Nat) :
    ∀ (ts : List DenseTensor) (st : CopyState) (p : Nat × Nat),
      p ∈ (copyLoop rank st ts).slices →
      p ∈ st.slices ∨ (st.begin ≤ p.1 ∧ p.1 < p.2 ∧ p.2 ≤ st.begin + advanceSum rank ts) := by
  intro ts
  induction ts with
  | nil => intro st p hp; exact Or.inl hp
  | cons t ts ih =>
    intro st p hp
    unfold copyLoop at hp
    have hb := copyStep_begin rank st t
    have hsum : advanceSum rank (t :: ts) = advance rank t + advanceSum rank ts := by
      simp [advanceSum]
    rcases ih (copyStep rank st t) p hp with h1 | ⟨h1, h2, h3⟩
    · by_cases hz : advance rank t = 0
      · have hst : copyStep rank st t = st := by
          unfold copyStep
          have : (if rank = 0 then st.begin + 1 else st.begin + dim0 t.dims) = st.begin := by
            unfold advance at hz
            split at hz
            · cases hz
            · rename_i hr; simp [hr, hz]
          simp [this]
        rw [hst] at h1
        exact Or.inl h1
      · have hsl : (copyStep rank st t).slices =
            st.slices ++ [(st.begin, st.begin + advance rank t)] := by
          unfold copyStep
          have : (if rank = 0 then st.begin + 1 else st.begin + dim0 t.dims) =
              st.begin + advance rank t := by
            unfold advance; split <;> rfl
          simp only [this]
          rw [if_neg (by omega)]
        rw [hsl, List.mem_append] at h1
        rcases h1 with h1 | h1
        · exact Or.inl h1
        · simp only [List.mem_singleton] at h1
          subst h1
          right
          simp only
          omega
    · right
      rw [hb] at h1 h3
      omega

/-- C14 at its failing inputs. An initialized `[2]` source followed by an uninitialized source
of shape `[3]` passes all checks; the destination is given 2 rows, and the copy loop takes
the slice `[2, 5)` from it. Likewise an initialized empty source of shape `[2, 0]` at
position 0 followed by an initialized `[3, 1]` source: the destination is given 3 rows and
the copy loop takes the slice `[2, 5)`. -/
theorem C14_slice_out_of_bounds :
    (1 ≤ (cpuTensor [2] [] [1, 2]).dims.length ∧
      checkSources .FP32 .NCHW [2] [] 0 [uninitTensor .FP32 [3]] = .ok () ∧
      mergeRun [0] 0 [cpuTensor [2] [] [1, 2], uninitTensor .FP32 [3]] sampleFresh =
        .ok { begin := 5, dst := cpuTensor [2] [] [1, 2], slices := [(0, 2), (2, 5)] } ∧
      ¬ (5 ≤ dim0 (cpuTensor [2] [] [1, 2]).dims)) ∧
    (1 ≤ (cpuTensor [2, 0] [] []).dims.length ∧
      checkSources .FP32 .NCHW [3, 1] [] 0 [cpuTensor [3, 1] [] [1, 2, 3]] = .ok () ∧
      mergeRun [0] 0 [cpuTensor [2, 0] [] [], cpuTensor [3, 1] [] [1, 2, 3]] sampleFresh =
        .ok { begin := 5
              dst := { cpuTensor [3, 1] [] [] with data := [none, none, none] }
              slices := [(0, 2), (2, 5)] } ∧
      ¬ (5 ≤ dim0 [3, 1])) := by
  decide

/-- A failed merged branch leaves the container as it was. -/
theorem runMerged_error_data (D : Defaults) (offset_ : Nat) (src_vars : List Variable)
    (data : FetchResultType) (e : Err)
    (h : (runMerged D offset_ src_vars data).error = some e) :
    (runMerged D offset_ src_vars data).data = data := by
  cases data with
  | unmerged v => rfl
  | merged val =>
    cases src_vars with
    | nil => rfl
    | cons v vs =>
      cases v with
      | tensor t =>
        simp only [runMerged] at h ⊢
        cases hg : getTensors (Variable.tensor t :: vs) with
        | error e2 => rfl
        | ok ts =>
          simp only [hg] at h ⊢
          cases hm : FetchMergedLodTensor D.ddim offset_ ts D.tensor with
          | error e2 => rfl
          | ok d =>
            simp only [hm] at h ⊢
            unfold assignSlot at h ⊢
            by_cases hlt : offset_ < val.length
            · simp [hlt] at h
            · simp [hlt]
      | tensorArray a =>
        simp only [runMerged] at h ⊢
        cases hg : getArrays (Variable.tensorArray a :: vs) with
        | error e2 => rfl
        | ok as =>
          simp only [hg] at h ⊢
          cases hm : mergeArrays D offset_ as 0 (as.headD []).length with
          | error e2 => rfl
          | ok d =>
            simp only [hm] at h ⊢
            unfold assignSlot at h ⊢
            by_cases hlt : offset_ < val.length
            · simp [hlt] at h
            · simp [hlt]

/-- C15: in merged mode, when `RunImpl` ends with a failed consistency check (for plain
tensors, or at any element index of Tensor Sequences, whether or not earlier indices merged),
every slot of the result container, the node's own slot included, holds what it held before
the run. -/
theorem C15_failed_merge_leaves_container (D : Defaults) (scopes : ScopeLookup)
    (h : FetchAsyncOpHandle) (data : FetchResultType) (what : Mismatch) (offset : Nat)
    (hmode : h.return_merged_ = true)
    (herr : (RunImpl D scopes h data).error = some (.InvalidArgument what offset)) :
    (RunImpl D scopes h data).data = data := by
  unfold RunImpl at herr ⊢
  split
  · rfl
  · rename_i vars hv
    simp only [hv, hmode, if_true] at herr ⊢
    exact runMerged_error_data D h.offset_ vars data _ herr

/-- A run of C15: two sequences whose elements merge at index 0 and differ in a trailing
dimension at index 1; the run fails with `InvalidArgument` and both slots are as before. -/
theorem C15_failed_merge_leaves_container_witness :
    (RunImpl sampleDefaults sampleScopesMismatch
          { inputs_ := [⟨0, "zs"⟩, ⟨1, "zs"⟩], offset_ := 1, return_merged_ := true }
          (.merged [.tensor (cpuTensor [1] [] [7]), .tensor sampleFresh])).error =
        some (.InvalidArgument .dim 1) ∧
      (RunImpl sampleDefaults sampleScopesMismatch
          { inputs_ := [⟨0, "zs"⟩, ⟨1, "zs"⟩], offset_ := 1, return_merged_ := true }
          (.merged [.tensor (cpuTensor [1] [] [7]), .tensor sampleFresh])).data =
        .merged [.tensor (cpuTensor [1] [] [7]), .tensor sampleFresh] :=
  ⟨by decide, C15_failed_merge_leaves_container sampleDefaults sampleScopesMismatch
    { inputs_ := [⟨0, "zs"⟩, ⟨1, "zs"⟩], offset_ := 1, return_merged_ := true }
    (.merged [.tensor (cpuTensor [1] [] [7]), .tensor sampleFresh]) .dim 1 rfl (by decide)⟩

/-- When every source is non-empty and initialized and shares the trailing dimensions of a
first source of rank at least 1, every slice the copy loop takes lies within the rows of the
destination. -/
theorem merge_slices_in_bounds (dflt : DDim) (offset_ : Nat) (s0 : DenseTensor)
    (rest : List DenseTensor) (dst0 : DenseTensor) (st : CopyState)
    (h : mergeRun dflt offset_ (s0 :: rest) dst0 = .ok st) (hrank : s0.dims.length ≠ 0)
    (hall : ∀ t ∈ s0 :: rest, nonEmptyInit t = true ∧ t.dims.tail = s0.dims.tail) :
    ∀ p ∈ st.slices, p.1 < p.2 ∧ p.2 ≤ dim0 st.dst.dims := by
  have hdim : (concatDims (s0 :: rest) (dflt, false)).1 =
      leadingSum (s0 :: rest) :: s0.dims.tail := by
    apply concatDims_all dflt s0 rest (hall s0 (List.mem_cons_self _ _)).1
    · intro h0; rw [h0] at hrank; exact hrank rfl
    · intro t ht; exact hall t (List.mem_cons_of_mem _ ht)
  have hadv : advanceSum s0.dims.length (s0 :: rest) = leadingSum (s0 :: rest) := by
    have : advance s0.dims.length = fun t => dim0 t.dims := by
      funext t; simp [advance, hrank]
    simp [advanceSum, leadingSum, this]
  unfold mergeRun at h
  cases hc : checkSources (mergeReference dflt s0 (s0 :: rest)).new_type
      (mergeReference dflt s0 (s0 :: rest)).new_layout
      (mergeReference dflt s0 (s0 :: rest)).check_dim
      (mergeReference dflt s0 (s0 :: rest)).new_lod offset_ rest with
  | error e => simp [hc, bind, Except.bind] at h
  | ok u =>
    simp only [hc, bind, Except.bind, pure, Except.pure, Except.ok.injEq, if_neg hrank,
      hdim] at h
    subst h
    intro p hp
    have hattrs := copyLoop_attrs s0.dims.length (s0 :: rest)
      { begin := 0
        dst :=
          { dst0 with
            dims := leadingSum (s0 :: rest) :: s0.dims.tail
            layout := s0.layout
            lod := s0.lod
            place := if is_gpu_place s0.place = true then .CUDAPinnedPlace else .CPUPlace
            dtype := s0.dtype
            initialized := true
            data := List.replicate (leadingSum (s0 :: rest) :: s0.dims.tail).prod none }
        slices := [] }
    rw [hattrs.2.2.2.2]
    rcases copyLoop_slices_bound s0.dims.length (s0 :: rest) _ p hp with h1 | ⟨_, h2, h3⟩
    · simp at h1
    · rw [hadv] at h3
      simp only [Nat.zero_add] at h3
      exact ⟨h2, by simpa [dim0] using h3⟩

end Paddle
